import Mathlib

/-!
Shallow embedding of `ConvertAnyCSVtoFasta.py` (a CSV-to-FASTA converter).

The script has two functions:

* `convert_csv_to_fasta(input_file, output_file, sequence_column, id_column)` —
  reads a CSV table (read failures are printed and turn into a `None` result),
  auto-detects the sequence column by keyword substring match when no override
  is given (raising when none matches), auto-detects the identifier column the
  same way (absence is not an error), and writes one `>id\nsequence\n` block
  per row to the output file.
* `batch_convert(input_directory, output_directory, sequence_column, id_column)` —
  validates that the input path is a directory (raising otherwise), selects the
  entries of the directory listing whose lowercased name ends in `.csv`, and
  runs the single-file conversion on each, collecting the output paths of the
  conversions that returned a path.

The embedding below models tables as lists of association-list rows (cell
values are their textual form, matching the `str(...)` conversion the script applies at
output time), the writable files of the filesystem as a function from path to
optional content, a directory listing as a list of entries tagged with whether
the entry is a subdirectory and with what reading the entry as a CSV would
yield (`none` = the read raises, e.g. for a directory or a malformed file),
and Python exceptions as explicit error results.
-/

namespace CsvFasta

/-- `listPrefixEq pat l` is true when `pat` is a prefix of `l` (character lists). -/
def listPrefixEq : List Char → List Char → Bool
  | [], _ => true
  | _ :: _, [] => false
  | a :: as, b :: bs => a == b && listPrefixEq as bs

/-- The Python `s.lower()` lowering, as a character list (the keywords compared
against are ASCII, where the Python lowering and `Char.toLower` agree). -/
def toLowerChars (s : String) : List Char :=
  s.toList.map Char.toLower

/-- The Python `pat in s` substring test, on character lists. -/
def containsSub (pat : List Char) (s : List Char) : Bool :=
  s.tails.any (fun t => listPrefixEq pat t)

/-- The sequence-column keywords of line 38: "sequence", "seq", "protein", "aa". -/
def seqKeywords : List String := ["sequence", "seq", "protein", "aa"]

/-- The identifier-column keywords of line 48: "id", "identifier", "name", "accession". -/
def idKeywords : List String := ["id", "identifier", "name", "accession"]

/-- Line 38: whether any sequence keyword occurs in the lowercased column name. -/
def isSeqLike (col : String) : Bool :=
  seqKeywords.any (fun k => containsSub k.toList (toLowerChars col))

/-- Line 48: whether any identifier keyword occurs in the lowercased column name. -/
def isIdLike (col : String) : Bool :=
  idKeywords.any (fun k => containsSub k.toList (toLowerChars col))

/-- The exceptions the conversion can raise: the `ValueError` of line 41 when no
sequence column is detected (the ColumnResolutionError of the spec), and the
`KeyError` a `row[col]` lookup raises when an explicitly overridden column does
not exist in the table. -/
inductive ConvError where
  | columnResolutionError
  | keyError
  deriving DecidableEq

/-- A table row: a mapping from column name to the textual form of the cell. -/
abbrev Row := List (String × String)

/-- A table: the column names of the header in declared order, and the rows. -/
structure Table where
  columns : List String
  rows : List Row
  deriving DecidableEq

/-- One output record: the identifier placed after `>` and the sequence text. -/
structure OutputRecord where
  id : String
  seq : String
  deriving DecidableEq

/-- Lines 35-42: if no override is given, collect the columns whose lowercase
form contains a sequence keyword, raise if none, else take frontmost;
an override is used verbatim (the check is `is None`, so even `""` is kept). -/
def resolveSequenceColumn (cols : List String) (ov : Option String) : Except ConvError String :=
  match ov with
  | some c => .ok c
  | none =>
    match cols.filter isSeqLike with
    | [] => .error .columnResolutionError
    | c :: _ => .ok c

/-- Lines 45-50: if no override is given, take the frontmost column whose
lowercase form contains an identifier keyword, or `None` when none matches;
an override is used verbatim (the check is `is None`). -/
def resolveIdColumn (cols : List String) (ov : Option String) : Option String :=
  match ov with
  | some c => some c
  | none => (cols.filter isIdLike).head?

/-- Python truthiness of an optional string, as tested by `if id_column:` on
line 61: `None` and `""` are falsy. -/
def pyTruthy : Option String → Bool
  | none => false
  | some s => !(s == "")

/-- Lines 59-67 for one row at 0-based position `i`: the identifier is
`row[id_column]` when `id_column` is truthy, else `"Sequence_<i+1>"`; the
sequence is `row[sequence_column]`. `none` models a `KeyError` on lookup. -/
def recordForRow (idCol : Option String) (seqCol : String) (i : Nat) (row : Row) :
    Option OutputRecord :=
  let sid? : Option String :=
    if pyTruthy idCol then row.lookup (idCol.getD "") else some ("Sequence_" ++ toString (i + 1))
  match sid?, row.lookup seqCol with
  | some sid, some sq => some ⟨sid, sq⟩
  | _, _ => none

/-- The write loop of lines 59-70, started at position `i`: the records written
so far, and the exception (if any) that stopped the loop. A lookup failure
stops the loop at that row, leaving the earlier records already written. -/
def emitLoop (idCol : Option String) (seqCol : String) : Nat → List Row → List OutputRecord × Option ConvError
  | _, [] => ([], none)
  | i, r :: rs =>
    match recordForRow idCol seqCol i r with
    | none => ([], some .keyError)
    | some rec0 =>
      let (rest, e) := emitLoop idCol seqCol (i + 1) rs
      (rec0 :: rest, e)

/-- The emitted records of a complete, exception-free run of the write loop
(positions count from 0, as `df.iterrows()` yields the default range index). -/
def emitRows (idCol : Option String) (seqCol : String) (rows : List Row) :
    Option (List OutputRecord) :=
  match emitLoop idCol seqCol 0 rows with
  | (recs, none) => some recs
  | (_, some _) => none

/-- Line 70 for one record: `f">{seq_id}\n{sequence}\n"`. -/
def renderRecord (r : OutputRecord) : String :=
  ">" ++ r.id ++ "\n" ++ r.seq ++ "\n"

/-- The file content produced by writing the records in order (the loop of
lines 59-70 appends one `renderRecord` block per record, nothing else). -/
def renderFasta (recs : List OutputRecord) : String :=
  String.join (recs.map renderRecord)

/-- The writable files: path to optional content (`none` = file absent). -/
abbrev FileStore := String → Option String

/-- the truncating-write open of the output path followed by writing `content`: the previous content of
`path` is discarded and replaced. -/
def setFile (store : FileStore) (path content : String) : FileStore :=
  fun p => if p = path then some content else store p

/-- The outcome of `convert_csv_to_fasta`: returned the output path, returned
`None` after a read error (line 32), or raised an exception. -/
inductive ConvResult where
  | ok
  | readFailed
  | raised (e : ConvError)
  deriving DecidableEq

/-- `convert_csv_to_fasta` with an explicit output path. `tbl` is what
`pd.read_csv(input_file)` yields (`none` = the read raises, caught on line 30).
Resolution happens before the file is opened; the file is truncated on open,
so a run whose write loop raises still leaves the records written so far. -/
def runConvert (store : FileStore) (outputPath : String) (tbl : Option Table)
    (seqOv idOv : Option String) : FileStore × ConvResult :=
  match tbl with
  | none => (store, .readFailed)
  | some t =>
    match resolveSequenceColumn t.columns seqOv with
    | .error e => (store, .raised e)
    | .ok seqCol =>
      let idCol := resolveIdColumn t.columns idOv
      let (recs, err) := emitLoop idCol seqCol 0 t.rows
      let store1 := setFile store outputPath (renderFasta recs)
      match err with
      | none => (store1, .ok)
      | some e => (store1, .raised e)

/-- `os.path.splitext(name)[0]`: the name with its last extension removed;
dots leading the name do not start an extension. -/
def stemOf (name : String) : String :=
  let cs := name.toList
  let lead := (cs.takeWhile (fun c => c == '.')).length
  let rest := cs.drop lead
  if rest.contains '.' then
    let extLen := (rest.reverse.takeWhile (fun c => !(c == '.'))).length + 1
    String.mk (cs.take (cs.length - extLen))
  else
    name

/-- The test on line 109: the lowercased name ends with ".csv". -/
def lowerEndsWithCsv (s : String) : Bool :=
  listPrefixEq (String.toList ".csv").reverse (toLowerChars s).reverse

/-- Line 115: join the output directory with the stem of the file plus ".fasta". -/
def outPathFor (outDir name : String) : String :=
  outDir ++ "/" ++ stemOf name ++ ".fasta"

/-- One entry of the listing of the input directory: its name, whether it is a
subdirectory, and what reading it as a CSV yields (`none` = the read raises,
which is always the case for a subdirectory). -/
structure DirEntry where
  name : String
  isDir : Bool
  tableRead : Option Table
  deriving DecidableEq

/-- Line 109: the entries of `os.listdir(input_directory)` whose lowercased
name ends in `.csv` — the filter looks only at the name, not the entry type. -/
def batchJobs (entries : List DirEntry) : List DirEntry :=
  entries.filter (fun e => lowerEndsWithCsv e.name)

/-- The outcome of `batch_convert`: the returned list of output paths, the
`ValueError` of line 99 on a non-directory input, or an exception propagated
out of a per-file conversion (which discards the accumulated list). -/
inductive BatchResult where
  | ok (outputs : List String)
  | invalidDir
  | raised (e : ConvError)
  deriving DecidableEq

/-- The loop of lines 112-127 over the selected files: each file is converted
to `outputDir / (stem + ".fasta")`; an `ok` result appends the path, a
`readFailed` result is skipped, and a raised exception propagates at once. -/
def batchLoop (store : FileStore) (outDir : String) (seqOv idOv : Option String) :
    List DirEntry → FileStore × BatchResult
  | [] => (store, .ok [])
  | e :: es =>
    let path := outPathFor outDir e.name
    let (store1, res) := runConvert store path e.tableRead seqOv idOv
    match res with
    | .raised err => (store1, .raised err)
    | .readFailed => batchLoop store1 outDir seqOv idOv es
    | .ok =>
      match batchLoop store1 outDir seqOv idOv es with
      | (s2, .ok outs) => (s2, .ok (path :: outs))
      | (s2, r) => (s2, r)

/-- `batch_convert`. `listing` is the directory listing of `inputDir`, or
`none` when `os.path.isdir(input_directory)` is false (line 98), in which case
the `ValueError` of line 99 is raised before any job is attempted. The output
directory defaults to the input directory (line 103); creating it (line 106)
needs no model since only files appear in the store. -/
def batchConvert (store : FileStore) (inputDir : String) (outputDir : Option String)
    (listing : Option (List DirEntry)) (seqOv idOv : Option String) :
    FileStore × BatchResult :=
  match listing with
  | none => (store, .invalidDir)
  | some entries =>
    let outDir := outputDir.getD inputDir
    batchLoop store outDir seqOv idOv (batchJobs entries)

/-! ### Helper lemmas -/

theorem filter_eq_nil_of_all_false {α : Type} (p : α → Bool) :
    ∀ l : List α, (∀ x ∈ l, p x = false) → l.filter p = [] := by
  intro l h
  induction l with
  | nil => rfl
  | cons a as ih =>
    have ha : p a = false := h a (List.mem_cons_self a as)
    simp [List.filter_cons, ha]
    exact fun x hx => h x (List.mem_cons_of_mem a hx)

theorem filter_leftmost {α : Type} (p : α → Bool) (pre post : List α) (c : α)
    (hc : p c = true) (hpre : ∀ x ∈ pre, p x = false) :
    (pre ++ c :: post).filter p = c :: post.filter p := by
  rw [List.filter_append, filter_eq_nil_of_all_false p pre hpre, List.nil_append,
    List.filter_cons]
  simp [hc]

theorem resolveSeq_err (cols : List String) (h : ∀ x ∈ cols, isSeqLike x = false) :
    resolveSequenceColumn cols none = .error .columnResolutionError := by
  simp [resolveSequenceColumn, filter_eq_nil_of_all_false isSeqLike cols h]

theorem resolveSeq_detect (pre post : List String) (c : String)
    (hc : isSeqLike c = true) (hpre : ∀ x ∈ pre, isSeqLike x = false) :
    resolveSequenceColumn (pre ++ c :: post) none = .ok c := by
  simp [resolveSequenceColumn, filter_leftmost isSeqLike pre post c hc hpre]

theorem resolveId_detect (pre post : List String) (c : String)
    (hc : isIdLike c = true) (hpre : ∀ x ∈ pre, isIdLike x = false) :
    resolveIdColumn (pre ++ c :: post) none = some c := by
  simp [resolveIdColumn, filter_leftmost isIdLike pre post c hc hpre]

theorem resolveId_absent (cols : List String) (h : ∀ x ∈ cols, isIdLike x = false) :
    resolveIdColumn cols none = none := by
  simp [resolveIdColumn, filter_eq_nil_of_all_false isIdLike cols h]

theorem isIdLike_ne_empty (c : String) (hc : isIdLike c = true) : (c == "") = false := by
  cases hb : (c == "") with
  | false => rfl
  | true =>
    have hce : c = "" := eq_of_beq hb
    subst hce
    exact absurd hc (by decide)

theorem emitLoop_ok_spec (idCol : Option String) (seqCol : String) :
    ∀ (i0 : Nat) (rows : List Row) (recs : List OutputRecord),
      emitLoop idCol seqCol i0 rows = (recs, none) →
      recs.length = rows.length ∧
      ∀ k : Nat, recs.get? k = (rows.get? k).bind (recordForRow idCol seqCol (i0 + k)) := by
  intro i0 rows
  induction rows generalizing i0 with
  | nil =>
    intro recs h
    simp [emitLoop] at h
    subst h
    exact ⟨rfl, fun k => rfl⟩
  | cons r rs ih =>
    intro recs h
    unfold emitLoop at h
    cases hrec : recordForRow idCol seqCol i0 r with
    | none => rw [hrec] at h; simp at h
    | some rec0 =>
      rw [hrec] at h
      cases hloop : emitLoop idCol seqCol (i0 + 1) rs with
      | mk rest e =>
        rw [hloop] at h
        have hrecs : rec0 :: rest = recs := congrArg Prod.fst h
        have he : e = none := congrArg Prod.snd h
        subst he
        have hspec := ih (i0 + 1) rest hloop
        subst hrecs
        constructor
        · simpa using hspec.1
        · intro k
          cases k with
          | zero =>
            simp [hrec]
          | succ k0 =>
            have := hspec.2 k0
            have hidx : i0 + 1 + k0 = i0 + (k0 + 1) := by omega
            rw [hidx] at this
            simpa using this

theorem emitRows_eq_loop (idCol : Option String) (seqCol : String) (rows : List Row)
    (recs : List OutputRecord) (h : emitRows idCol seqCol rows = some recs) :
    emitLoop idCol seqCol 0 rows = (recs, none) := by
  unfold emitRows at h
  cases hloop : emitLoop idCol seqCol 0 rows with
  | mk l e =>
    rw [hloop] at h
    cases e with
    | none => simp at h; subst h; rfl
    | some e0 => simp at h

theorem emitRows_pointwise (idCol : Option String) (seqCol : String) (rows : List Row)
    (recs : List OutputRecord) (h : emitRows idCol seqCol rows = some recs) :
    recs.length = rows.length ∧
    ∀ k : Nat, recs.get? k = (rows.get? k).bind (recordForRow idCol seqCol k) := by
  have hspec := emitLoop_ok_spec idCol seqCol 0 rows recs (emitRows_eq_loop idCol seqCol rows recs h)
  refine ⟨hspec.1, fun k => ?_⟩
  have := hspec.2 k
  simpa using this

theorem recordForRow_none_id (seqCol : String) (k : Nat) (row : Row) (rec : OutputRecord)
    (h : recordForRow none seqCol k row = some rec) :
    rec.id = "Sequence_" ++ toString (k + 1) := by
  unfold recordForRow at h
  simp [pyTruthy] at h
  cases hs : row.lookup seqCol with
  | none => rw [hs] at h; simp at h
  | some sq => rw [hs] at h; simp at h; rw [← h]

theorem recordForRow_some_id (c seqCol : String) (hc : (c == "") = false) (k : Nat)
    (row : Row) (rec : OutputRecord) (h : recordForRow (some c) seqCol k row = some rec) :
    row.lookup c = some rec.id := by
  unfold recordForRow at h
  simp [pyTruthy, hc] at h
  cases hi : row.lookup c with
  | none => rw [hi] at h; simp at h
  | some sid =>
    rw [hi] at h
    cases hs : row.lookup seqCol with
    | none => rw [hs] at h; simp at h
    | some sq => rw [hs] at h; simp at h; rw [← h]

theorem recordForRow_empty_override (seqCol : String) (k : Nat) (row : Row) :
    recordForRow (some "") seqCol k row = recordForRow none seqCol k row := rfl

theorem emitLoop_empty_override (seqCol : String) :
    ∀ (i0 : Nat) (rows : List Row),
      emitLoop (some "") seqCol i0 rows = emitLoop none seqCol i0 rows := by
  intro i0 rows
  induction rows generalizing i0 with
  | nil => rfl
  | cons r rs ih =>
    unfold emitLoop
    rw [recordForRow_empty_override, ih]

theorem emitRows_none_positional (seqCol : String) (rows : List Row)
    (recs : List OutputRecord) (h : emitRows none seqCol rows = some recs) :
    ∀ k rec, recs.get? k = some rec → rec.id = "Sequence_" ++ toString (k + 1) := by
  intro k rec hk
  have hpoint := (emitRows_pointwise none seqCol rows recs h).2 k
  rw [hk] at hpoint
  rcases Option.bind_eq_some.mp hpoint.symm with ⟨row, _, hrow⟩
  exact recordForRow_none_id seqCol k row rec hrow

theorem strJoin_cons (a : String) (l : List String) :
    String.join (a :: l) = a ++ String.join l := by
  apply String.ext
  simp

/-! ### The claims -/

/-- Claim C2: for every ordered sequence of column names containing at least one
column whose lowercase form contains one of the substrings "sequence", "seq",
"protein" or "aa", and with no sequence override given, resolution selects the
leftmost (first in original column order) such column as the sequence column. -/
theorem claim2_seq_resolution_leftmost (pre post : List String) (c : String)
    (hc : isSeqLike c = true) (hpre : ∀ x ∈ pre, isSeqLike x = false) :
    resolveSequenceColumn (pre ++ c :: post) none = .ok c :=
  resolveSeq_detect pre post c hc hpre

theorem claim2_seq_resolution_leftmost_witness :
    resolveSequenceColumn ["col_a", "protein_sequence", "seq2"] none =
      .ok "protein_sequence" :=
  claim2_seq_resolution_leftmost ["col_a"] ["seq2"] "protein_sequence"
    (by decide) (by decide)

/-- Claim C3: for every ordered sequence of column names in which no column has a
lowercase form containing one of the substrings "sequence", "seq", "protein" or
"aa", and with no sequence override given, resolution fails with the
column-resolution error (the ValueError raised on line 41, which the spec calls
ColumnResolutionError). -/
theorem claim3_no_seq_column_error (cols : List String)
    (h : ∀ x ∈ cols, isSeqLike x = false) :
    resolveSequenceColumn cols none = .error .columnResolutionError :=
  resolveSeq_err cols h

theorem claim3_no_seq_column_error_witness :
    resolveSequenceColumn ["col_a", "col_b"] none = .error .columnResolutionError :=
  claim3_no_seq_column_error ["col_a", "col_b"] (by decide)

/-- Claim C4: for every table and every resolved column mapping, emission
produces exactly one output record per input row, in the table row order, with
no reordering and no filtering: the record count equals the row count and the
record at position k is exactly the one derived from the row at position k. -/
theorem claim4_one_record_per_row (idCol : Option String) (seqCol : String)
    (rows : List Row) (recs : List OutputRecord)
    (h : emitRows idCol seqCol rows = some recs) :
    recs.length = rows.length ∧
    ∀ k : Nat, recs.get? k = (rows.get? k).bind (recordForRow idCol seqCol k) :=
  emitRows_pointwise idCol seqCol rows recs h

theorem claim4_one_record_per_row_witness :
    ([⟨"Sequence_1", "MKT"⟩, ⟨"Sequence_2", "GHV"⟩] : List OutputRecord).length =
      ([[("s", "MKT")], [("s", "GHV")]] : List Row).length :=
  (claim4_one_record_per_row none "s" [[("s", "MKT")], [("s", "GHV")]]
    [⟨"Sequence_1", "MKT"⟩, ⟨"Sequence_2", "GHV"⟩] (by decide)).1

/-- Claim C5: with no id override, if some column has a lowercase name containing
one of "id", "identifier", "name" or "accession", the leftmost such column
supplies the identifier of every record (the record id is the looked-up cell of
that column); otherwise the identifier of the record at 0-based position k is
"Sequence_<k+1>", counting per table in row order. -/
theorem claim5_id_leftmost_or_positional (pre post : List String) (c seqCol : String)
    (cols2 : List String) (rows rows2 : List Row) (recs recs2 : List OutputRecord)
    (hc : isIdLike c = true) (hpre : ∀ x ∈ pre, isIdLike x = false)
    (hnone : ∀ x ∈ cols2, isIdLike x = false)
    (hemit : emitRows (resolveIdColumn (pre ++ c :: post) none) seqCol rows = some recs)
    (hemit2 : emitRows (resolveIdColumn cols2 none) seqCol rows2 = some recs2) :
    resolveIdColumn (pre ++ c :: post) none = some c ∧
    (∀ k row rec, rows.get? k = some row → recs.get? k = some rec →
      row.lookup c = some rec.id) ∧
    resolveIdColumn cols2 none = none ∧
    (∀ k rec, recs2.get? k = some rec → rec.id = "Sequence_" ++ toString (k + 1)) := by
  have hres : resolveIdColumn (pre ++ c :: post) none = some c :=
    resolveId_detect pre post c hc hpre
  have habs : resolveIdColumn cols2 none = none := resolveId_absent cols2 hnone
  rw [hres] at hemit
  rw [habs] at hemit2
  refine ⟨hres, fun k row rec hrow hrec => ?_, habs,
    emitRows_none_positional seqCol rows2 recs2 hemit2⟩
  have hpoint := (emitRows_pointwise (some c) seqCol rows recs hemit).2 k
  rw [hrow, hrec] at hpoint
  exact recordForRow_some_id c seqCol (isIdLike_ne_empty c hc) k row rec hpoint.symm

theorem claim5_id_leftmost_or_positional_witness :
    resolveIdColumn ["accession_id", "protein_sequence"] none = some "accession_id" ∧
    ([("accession_id", "P001"), ("protein_sequence", "MKT")] : Row).lookup "accession_id" =
      some (OutputRecord.mk "P001" "MKT").id ∧
    resolveIdColumn ["col_a", "col_b"] none = none ∧
    (OutputRecord.mk "Sequence_1" "GHV").id = "Sequence_" ++ toString (0 + 1) := by
  have h := claim5_id_leftmost_or_positional [] ["protein_sequence"] "accession_id"
    "protein_sequence" ["col_a", "col_b"]
    [[("accession_id", "P001"), ("protein_sequence", "MKT")]] [[("protein_sequence", "GHV")]]
    [⟨"P001", "MKT"⟩] [⟨"Sequence_1", "GHV"⟩]
    (by decide) (by decide) (by decide) (by decide) (by decide)
  exact ⟨h.1, h.2.1 0 _ _ rfl rfl, h.2.2.1, h.2.2.2 0 _ rfl⟩

/-- Claim C6: the serialized output for a sequence of records is exactly, for
each record in order, the character ">" followed immediately by the identifier,
a newline, the sequence text verbatim, and a newline, with nothing between
records. -/
theorem claim6_serialization_format (recs : List OutputRecord) :
    renderFasta recs =
      recs.foldr (fun r acc => ">" ++ r.id ++ "\n" ++ r.seq ++ "\n" ++ acc) "" := by
  induction recs with
  | nil => rfl
  | cons r rs ih =>
    have h1 : renderFasta (r :: rs) = renderRecord r ++ renderFasta rs := by
      unfold renderFasta
      rw [List.map_cons, strJoin_cons]
    rw [h1, ih, List.foldr_cons]
    apply String.ext
    simp [renderRecord]

/-- Claim C1 counterexample: in a batch over a directory holding `a.csv` (whose
table has no sequence-like column, so its job fails with the column-resolution
error) followed by `b.csv` (a perfectly convertible table), the batch does NOT
continue: the resolution error propagates out of the loop and the output for
`b.csv` is never written — refuting the claim that a column-resolution failure
in one job leaves the remaining files processed and merely excluded. -/
theorem claim1_counterexample :
    (batchConvert (fun _ => none) "in" (some "out")
        (some [⟨"a.csv", false, some ⟨["col_a"], [[("col_a", "x")]]⟩⟩,
               ⟨"b.csv", false, some ⟨["sequence"], [[("sequence", "MKT")]]⟩⟩])
        none none).2 = .raised .columnResolutionError ∧
    (batchConvert (fun _ => none) "in" (some "out")
        (some [⟨"a.csv", false, some ⟨["col_a"], [[("col_a", "x")]]⟩⟩,
               ⟨"b.csv", false, some ⟨["sequence"], [[("sequence", "MKT")]]⟩⟩])
        none none).1 "out/b.fasta" = none := by decide

/-- Claim C1 as amended: a table READ failure in one job does not abort the
batch — the failed file is skipped, excluded from the returned list, and every
remaining file is still processed; a COLUMN-RESOLUTION failure, however,
propagates out of the batch loop at once, so the remaining files are not
processed and no list of output paths is returned. -/
theorem claim1_batch_error_policy (store : FileStore) (outDir : String)
    (seqOv idOv : Option String) (e : DirEntry) (es : List DirEntry) :
    (e.tableRead = none →
      batchLoop store outDir seqOv idOv (e :: es) = batchLoop store outDir seqOv idOv es) ∧
    (∀ t, e.tableRead = some t → seqOv = none → (∀ x ∈ t.columns, isSeqLike x = false) →
      batchLoop store outDir seqOv idOv (e :: es) =
        (store, .raised .columnResolutionError)) := by
  constructor
  · intro h
    simp [batchLoop, runConvert, h]
  · intro t ht hs hcols
    subst hs
    simp [batchLoop, runConvert, ht, resolveSeq_err t.columns hcols]

theorem claim1_batch_error_policy_witness :
    batchLoop (fun _ => none) "out" none none
        [⟨"x.csv", false, none⟩, ⟨"b.csv", false, some ⟨["sequence"], [[("sequence", "MKT")]]⟩⟩] =
      batchLoop (fun _ => none) "out" none none
        [⟨"b.csv", false, some ⟨["sequence"], [[("sequence", "MKT")]]⟩⟩] ∧
    batchLoop (fun _ => none) "out" none none
        [⟨"a.csv", false, some ⟨["col_a"], [[("col_a", "x")]]⟩⟩] =
      ((fun _ => none : FileStore), .raised .columnResolutionError) := by
  constructor
  · exact (claim1_batch_error_policy (fun _ => none) "out" none none
      ⟨"x.csv", false, none⟩ _).1 rfl
  · exact (claim1_batch_error_policy (fun _ => none) "out" none none
      ⟨"a.csv", false, some ⟨["col_a"], [[("col_a", "x")]]⟩⟩ []).2
      ⟨["col_a"], [[("col_a", "x")]]⟩ rfl rfl (by decide)

/-- Claim C7 counterexample: the discovery filter of line 109 looks only at the
entry name, so a SUBDIRECTORY whose name ends in ".csv" is also treated as a
job — refuting the claim that subdirectories are ignored when selecting jobs.
Here a directory entry named "sub.csv" with `isDir = true` is kept by the
job-selection filter. -/
theorem claim7_counterexample :
    batchJobs [⟨"a.csv", false, none⟩, ⟨"sub.csv", true, none⟩] =
      [⟨"a.csv", false, none⟩, ⟨"sub.csv", true, none⟩] ∧
    (DirEntry.mk "sub.csv" true none).isDir = true := by decide

/-- Claim C7 as amended: batch mode treats as a job exactly those directory
entries directly inside the input directory (non-recursive) whose name ends in
".csv" case-insensitively — whether the entry is a file or a subdirectory —
visiting each qualifying entry exactly once and ignoring entries with other
extensions; a subdirectory named like a CSV is selected too (its job then fails
at read time). -/
theorem claim7_jobs_by_name (entries : List DirEntry) (hnd : entries.Nodup) :
    (batchJobs entries).Nodup ∧
    ∀ e, e ∈ batchJobs entries ↔ (e ∈ entries ∧ lowerEndsWithCsv e.name = true) := by
  refine ⟨hnd.filter _, fun e => ?_⟩
  simp [batchJobs, List.mem_filter]

theorem claim7_jobs_by_name_witness :
    (batchJobs [⟨"a.csv", false, none⟩, ⟨"SUB.CSV", true, none⟩,
      ⟨"notes.txt", false, none⟩]).Nodup :=
  (claim7_jobs_by_name [⟨"a.csv", false, none⟩, ⟨"SUB.CSV", true, none⟩,
    ⟨"notes.txt", false, none⟩] (by decide)).1

/-- Claim C8: when the input path does not exist or is not a directory (so the
listing is absent), batch conversion fails with the invalid-directory error
(the ValueError of line 99, the InvalidDirectoryError of the spec) before any
job is attempted: the file store is untouched and no output paths are
returned. -/
theorem claim8_invalid_directory (store : FileStore) (inputDir : String)
    (outputDir : Option String) (seqOv idOv : Option String) :
    batchConvert store inputDir outputDir none seqOv idOv = (store, .invalidDir) := rfl

/-- Claim C9: converting the same table twice with the same arguments produces
byte-identical output file contents — the second run overwrites the first with
the same bytes, since the output file is opened for (truncating) writing and
the emitted content is a function of the table and the overrides alone. -/
theorem claim9_idempotent (store : FileStore) (path : String) (tbl : Option Table)
    (seqOv idOv : Option String) :
    (runConvert (runConvert store path tbl seqOv idOv).1 path tbl seqOv idOv).1 path =
      (runConvert store path tbl seqOv idOv).1 path := by
  cases tbl with
  | none => rfl
  | some t =>
    cases hres : resolveSequenceColumn t.columns seqOv with
    | error e => simp [runConvert, hres]
    | ok seqCol =>
      cases hloop : emitLoop (resolveIdColumn t.columns idOv) seqCol 0 t.rows with
      | mk recs err =>
        cases err with
        | none => simp [runConvert, hres, hloop, setFile]
        | some e0 => simp [runConvert, hres, hloop, setFile]

/-- Claim C10: when the id-column override is the empty string, auto-detection
is skipped (the override is kept verbatim, not replaced), yet emission behaves
exactly as if no identifier column existed: the empty string is never used as
a lookup key and every identifier falls back to the positional form
"Sequence_<k+1>". -/
theorem claim10_empty_id_override (cols : List String) (seqCol : String)
    (rows : List Row) (recs : List OutputRecord)
    (h : emitRows (resolveIdColumn cols (some "")) seqCol rows = some recs) :
    resolveIdColumn cols (some "") = some "" ∧
    emitRows (some "") seqCol rows = emitRows none seqCol rows ∧
    ∀ k rec, recs.get? k = some rec → rec.id = "Sequence_" ++ toString (k + 1) := by
  have h1 : resolveIdColumn cols (some "") = some "" := rfl
  have h2 : emitRows (some "") seqCol rows = emitRows none seqCol rows := by
    unfold emitRows
    rw [emitLoop_empty_override]
  rw [h1, h2] at h
  exact ⟨h1, h2, emitRows_none_positional seqCol rows recs h⟩

theorem claim10_empty_id_override_witness :
    resolveIdColumn ["accession_id", "s"] (some "") = some "" ∧
    emitRows (some "") "s" [[("s", "MKT")]] = emitRows none "s" [[("s", "MKT")]] ∧
    (OutputRecord.mk "Sequence_1" "MKT").id = "Sequence_" ++ toString (0 + 1) := by
  have h := claim10_empty_id_override ["accession_id", "s"] "s" [[("s", "MKT")]]
    [⟨"Sequence_1", "MKT"⟩] (by decide)
  exact ⟨h.1, h.2.1, h.2.2 0 _ rfl⟩

end CsvFasta
